import Mathlib

set_option maxRecDepth 40000

/-!
Shallow embedding of the core of the `browser-script-to-extension`
repository: the userscript metadata parser (`src/parser.py`), the
polyfill-injecting code converter (`src/converter.py`), the Manifest V3
generator (`src/manifest.py`) and the store-readiness validator
(`src/validator.py`).  Strings are modelled by Lean `String` / `List Char`;
Python dicts (which preserve insertion order) are modelled by ordered
association lists; Python `None`-able values by `Option`; functions that
`raise` by `Option` / `Except`.
-/

/-- The six ASCII whitespace characters recognised by Python's `str.strip`
and by the regex class `\s` (for the ASCII inputs handled here). -/
def pyIsSpace (c : Char) : Bool :=
  c = ' ' || c = '\t' || c = '\n' || c = '\x0b' || c = '\x0c' || c = '\r'

/-- Python `str.strip()` on a list of characters: drop whitespace from both
ends. -/
def stripChars (l : List Char) : List Char :=
  ((l.dropWhile pyIsSpace).reverse.dropWhile pyIsSpace).reverse

/-- Python `str.split(sep)` for a one-character separator: split at every
occurrence, keeping empty segments (`"".split('.') == ['']`). -/
def splitOnChar (sep : Char) : List Char → List (List Char)
  | [] => [[]]
  | c :: rest =>
    if c = sep then [] :: splitOnChar sep rest
    else
      match splitOnChar sep rest with
      | [] => [[c]]
      | p :: ps => (c :: p) :: ps

/-- Python `sep.join(parts)`. -/
def pyJoin (sep : String) : List String → String
  | [] => ""
  | [x] => x
  | x :: y :: rest => x ++ sep ++ pyJoin sep (y :: rest)

/-- Python `s.startswith(pre)`. -/
def pyStartsWith (s pre : String) : Bool :=
  pre.data.isPrefixOf s.data

/-- Lookup in an insertion-ordered association list; models Python
`dict.get` / `in` on a dict built by insertion. -/
def dictGet {α : Type} : List (String × α) → String → Option α
  | [], _ => none
  | (k', v) :: rest, k => if k' = k then some v else dictGet rest k

/-- Append one value under a key, creating the key at the end if absent;
models `metadata.setdefault(key, []).append(value)` semantics of
`_parse_metadata_lines` on an insertion-ordered dict. -/
def addValue : List (String × List String) → String → String → List (String × List String)
  | [], k, v => [(k, [v])]
  | (k', vs) :: rest, k, v =>
    if k' = k then (k', vs ++ [v]) :: rest else (k', vs) :: addValue rest k v

/-- Split a character list at the first occurrence of `marker`, returning
the part strictly before it and the part strictly after it; `none` when
`marker` does not occur.  This is the primitive behind the (leftmost,
non-greedy) regex search used for the metadata block delimiters. -/
def findSplit (marker : List Char) : List Char → Option (List Char × List Char)
  | [] => if marker.isEmpty then some ([], []) else none
  | c :: rest =>
    if marker.isPrefixOf (c :: rest) then some ([], (c :: rest).drop marker.length)
    else
      match findSplit marker rest with
      | some (a, b) => some (c :: a, b)
      | none => none

/-- `UserScriptMetadata` dataclass from `src/parser.py`.  The Python field
`namespace` is spelled `nameSpace` because `namespace` is reserved in Lean. -/
structure UserScriptMetadata where
  name : String
  nameSpace : String
  version : String
  description : String
  author : String
  license : String
  match_patterns : List String
  grant_permissions : List String
  require_urls : List String
  resource_urls : List String
  connect_urls : List String
  run_at : String
  icon_url : Option String
  update_url : Option String
  download_url : Option String
  support_url : Option String
  homepage_url : Option String
  raw_metadata : List (String × List String)
deriving DecidableEq

/-- `UserScriptMetadata.uses_gm_api`. -/
def uses_gm_api (md : UserScriptMetadata) : Bool :=
  md.grant_permissions.any (fun grant => (grant != "none") && pyStartsWith grant "GM")

/-- `UserScriptMetadata.get_required_apis`. -/
def get_required_apis (md : UserScriptMetadata) : List String :=
  md.grant_permissions.filter (fun grant => (grant != "none") && pyStartsWith grant "GM")

/-- The fixed opening delimiter of the metadata block
(`METADATA_BLOCK_PATTERN`, left part). -/
def userscriptOpenMarker : List Char := "// ==UserScript==\n".data

/-- The fixed closing delimiter of the metadata block
(`METADATA_BLOCK_PATTERN`, right part). -/
def userscriptCloseMarker : List Char := "// ==/UserScript==".data

/-- `UserScriptParser._extract_metadata_block`: the regex
`// ==UserScript==\n(.*?)// ==/UserScript==` with `re.DOTALL`, searched
leftmost with a non-greedy group, i.e. the text between the first opening
marker and the first closing marker after it; `none` models the raised
`ValueError` when there is no match. -/
def extract_metadata_block (content : String) : Option String :=
  match findSplit userscriptOpenMarker content.data with
  | none => none
  | some (_, afterOpen) =>
    match findSplit userscriptCloseMarker afterOpen with
    | none => none
    | some (block, _) => some (String.mk block)

/-- `METADATA_LINE_PATTERN.match`, i.e. the regex `// @(\S+)\s+(.+)`
anchored at the start, applied to a line that has already been stripped
(as `_parse_metadata_lines` does): the key is the maximal non-space run
after `// @`, then at least one whitespace character must follow, and the
value is the rest of the line after that whitespace run (non-empty). -/
def matchDirectiveLine (line : List Char) : Option (String × String) :=
  match line with
  | '/' :: '/' :: ' ' :: '@' :: rest =>
    let key := rest.takeWhile (fun c => !pyIsSpace c)
    let afterKey := rest.dropWhile (fun c => !pyIsSpace c)
    let value := afterKey.dropWhile pyIsSpace
    if key.isEmpty || afterKey.isEmpty || value.isEmpty then none
    else some (String.mk key, String.mk value)
  | _ => none

/-- One iteration of the loop in `UserScriptParser._parse_metadata_lines`:
strip the line, match the directive pattern, record key/value on a match,
leave the accumulated dict unchanged otherwise. -/
def processLine (m : List (String × List String)) (line : List Char) :
    List (String × List String) :=
  match matchDirectiveLine (stripChars line) with
  | some (k, v) => addValue m k v
  | none => m

/-- `UserScriptParser._parse_metadata_lines`. -/
def parse_metadata_lines (block : String) : List (String × List String) :=
  (splitOnChar '\n' block.data).foldl processLine []

/-- `UserScriptParser._get_first_value`: first recorded value for the key,
or the default. -/
def get_first_value (meta : List (String × List String)) (key dflt : String) : String :=
  match dictGet meta key with
  | some (v :: _) => v
  | some [] => dflt
  | none => dflt

/-- `UserScriptParser._get_first_value` with the implicit `None` default. -/
def get_first_value_opt (meta : List (String × List String)) (key : String) : Option String :=
  match dictGet meta key with
  | some (v :: _) => some v
  | some [] => none
  | none => none

/-- `UserScriptParser._get_all_values` (all call sites pass a non-`None`
default list). -/
def get_all_values (meta : List (String × List String)) (key : String)
    (dflt : List String) : List String :=
  match dictGet meta key with
  | some vs => vs
  | none => dflt

/-- `UserScriptParser._parse_run_at`: the key `run-at` is checked before
`runAt`; first match wins; default `document-end`.  (The `some []` branches
are unreachable: recorded value lists are never empty.) -/
def parse_run_at (meta : List (String × List String)) : String :=
  match dictGet meta "run-at" with
  | some (v :: _) => v
  | some [] => "document-end"
  | none =>
    match dictGet meta "runAt" with
    | some (v :: _) => v
    | some [] => "document-end"
    | none => "document-end"

/-- Construction of the `UserScriptMetadata` record in
`UserScriptParser.parse` from the raw metadata dict. -/
def build_metadata (raw : List (String × List String)) : UserScriptMetadata :=
  { name := get_first_value raw "name" "Unnamed Script"
    nameSpace := get_first_value raw "namespace" ""
    version := get_first_value raw "version" "1.0.0"
    description := get_first_value raw "description" ""
    author := get_first_value raw "author" ""
    license := get_first_value raw "license" "MIT"
    match_patterns := get_all_values raw "match" []
    grant_permissions := get_all_values raw "grant" ["none"]
    require_urls := get_all_values raw "require" []
    resource_urls := get_all_values raw "resource" []
    connect_urls := get_all_values raw "connect" []
    run_at := parse_run_at raw
    icon_url := get_first_value_opt raw "icon"
    update_url := get_first_value_opt raw "updateURL"
    download_url := get_first_value_opt raw "downloadURL"
    support_url := get_first_value_opt raw "supportURL"
    homepage_url := get_first_value_opt raw "homepage"
    raw_metadata := raw }

/-- `UserScriptParser.parse`: extract the metadata block and build the
record; `none` models the raised `ValueError`. -/
def parse (content : String) : Option UserScriptMetadata :=
  (extract_metadata_block content).map (fun block => build_metadata (parse_metadata_lines block))

/-- Shim snippet stored under key `GM_addStyle` in
`CodeConverter._get_api_polyfill`. -/
def polyfill_GM_addStyle : String :=
  "    // GM_addStyle polyfill\n    if (typeof GM_addStyle === \x27undefined\x27) \x7b\n        window.GM_addStyle = function(css) \x7b\n            const style = document.createElement(\x27style\x27);\n            style.textContent = css;\n            document.head.appendChild(style);\n            return style;\n        \x7d;\n    \x7d"

/-- Shim snippet stored under key `GM.setValue`. -/
def polyfill_GM_setValue : String :=
  "    // GM.setValue polyfill\n    if (typeof GM === \x27undefined\x27 || !GM.setValue) \x7b\n        window.GM = window.GM || \x7b\x7d;\n        GM.setValue = async function(key, value) \x7b\n            return new Promise((resolve) => \x7b\n                chrome.storage.local.set(\x7b[key]: value\x7d, () => resolve());\n            \x7d);\n        \x7d;\n    \x7d"

/-- Shim snippet stored under key `GM.getValue`. -/
def polyfill_GM_getValue : String :=
  "    // GM.getValue polyfill\n    if (typeof GM === \x27undefined\x27 || !GM.getValue) \x7b\n        window.GM = window.GM || \x7b\x7d;\n        GM.getValue = async function(key, defaultValue) \x7b\n            return new Promise((resolve) => \x7b\n                chrome.storage.local.get([key], (result) => \x7b\n                    resolve(key in result ? result[key] : defaultValue);\n                \x7d);\n            \x7d);\n        \x7d;\n    \x7d"

/-- Shim snippet stored under key `GM.deleteValue`. -/
def polyfill_GM_deleteValue : String :=
  "    // GM.deleteValue polyfill\n    if (typeof GM === \x27undefined\x27 || !GM.deleteValue) \x7b\n        window.GM = window.GM || \x7b\x7d;\n        GM.deleteValue = async function(key) \x7b\n            return new Promise((resolve) => \x7b\n                chrome.storage.local.remove([key], () => resolve());\n            \x7d);\n        \x7d;\n    \x7d"

/-- Shim snippet stored under key `GM.listValues`. -/
def polyfill_GM_listValues : String :=
  "    // GM.listValues polyfill\n    if (typeof GM === \x27undefined\x27 || !GM.listValues) \x7b\n        window.GM = window.GM || \x7b\x7d;\n        GM.listValues = async function() \x7b\n            return new Promise((resolve) => \x7b\n                chrome.storage.local.get(null, (items) => \x7b\n                    resolve(Object.keys(items));\n                \x7d);\n            \x7d);\n        \x7d;\n    \x7d"

/-- Shim snippet stored under key `GM.xmlHttpRequest`. -/
def polyfill_GM_xmlHttpRequest : String :=
  "    // GM.xmlHttpRequest polyfill\n    if (typeof GM === \x27undefined\x27 || !GM.xmlHttpRequest) \x7b\n        window.GM = window.GM || \x7b\x7d;\n        GM.xmlHttpRequest = function(details) \x7b\n            fetch(details.url, \x7b\n                method: details.method || \x27GET\x27,\n                headers: details.headers || \x7b\x7d,\n                body: details.data\n            \x7d).then(response => response.text()).then(text => \x7b\n                if (details.onload) \x7b\n                    details.onload(\x7b\n                        status: 200,\n                        statusText: \x27OK\x27,\n                        responseText: text,\n                        response: text\n                    \x7d);\n                \x7d\n            \x7d).catch(error => \x7b\n                if (details.onerror) \x7b\n                    details.onerror(error);\n                \x7d\n            \x7d);\n        \x7d;\n    \x7d"

/-- Shim snippet stored under key `GM.notification`. -/
def polyfill_GM_notification : String :=
  "    // GM.notification polyfill\n    if (typeof GM === \x27undefined\x27 || !GM.notification) \x7b\n        window.GM = window.GM || \x7b\x7d;\n        GM.notification = function(options) \x7b\n            chrome.notifications.create(\x7b\n                type: \x27basic\x27,\n                iconUrl: options.image || \x27\x27,\n                title: options.title || \x27\x27,\n                message: options.text || \x27\x27\n            \x7d);\n        \x7d;\n    \x7d"

/-- Shim snippet stored under key `GM.setClipboard`. -/
def polyfill_GM_setClipboard : String :=
  "    // GM.setClipboard polyfill\n    if (typeof GM === \x27undefined\x27 || !GM.setClipboard) \x7b\n        window.GM = window.GM || \x7b\x7d;\n        GM.setClipboard = function(text) \x7b\n            const textarea = document.createElement(\x27textarea\x27);\n            textarea.value = text;\n            document.body.appendChild(textarea);\n            textarea.select();\n            document.execCommand(\x27copy\x27);\n            document.body.removeChild(textarea);\n        \x7d;\n    \x7d"

/-- Shim snippet stored under key `GM.openInTab`. -/
def polyfill_GM_openInTab : String :=
  "    // GM.openInTab polyfill\n    if (typeof GM === \x27undefined\x27 || !GM.openInTab) \x7b\n        window.GM = window.GM || \x7b\x7d;\n        GM.openInTab = function(url, options) \x7b\n            const background = options && options.background;\n            chrome.tabs.create(\x7b url: url, active: !background \x7d);\n        \x7d;\n    \x7d"

/-- Shim snippet stored under key `GM.download`. -/
def polyfill_GM_download : String :=
  "    // GM.download polyfill\n    if (typeof GM === \x27undefined\x27 || !GM.download) \x7b\n        window.GM = window.GM || \x7b\x7d;\n        GM.download = function(details) \x7b\n            chrome.downloads.download(\x7b\n                url: details.url,\n                filename: details.name,\n                saveAs: details.saveAs || false\n            \x7d, details.onload || (() => \x7b\x7d));\n        \x7d;\n    \x7d"

/-- The `polyfills` literal dict of `CodeConverter._get_api_polyfill`, in
source order.  Note the keys: only `GM_addStyle` uses the underscore
spelling; the other nine are keyed by the dotted `GM.` API names. -/
def gm_polyfills : List (String × String) :=
  [("GM_addStyle", polyfill_GM_addStyle),
   ("GM.setValue", polyfill_GM_setValue),
   ("GM.getValue", polyfill_GM_getValue),
   ("GM.deleteValue", polyfill_GM_deleteValue),
   ("GM.listValues", polyfill_GM_listValues),
   ("GM.xmlHttpRequest", polyfill_GM_xmlHttpRequest),
   ("GM.notification", polyfill_GM_notification),
   ("GM.setClipboard", polyfill_GM_setClipboard),
   ("GM.openInTab", polyfill_GM_openInTab),
   ("GM.download", polyfill_GM_download)]

/-- `CodeConverter._get_api_polyfill`: `polyfills.get(api, '')`. -/
def get_api_polyfill (api : String) : String :=
  (dictGet gm_polyfills api).getD ""

/-- The snippets actually appended by the loop of
`CodeConverter._generate_polyfill`: one lookup per element of
`get_required_apis` (in order, duplicates kept), keeping only truthy
(non-empty) results. -/
def emitted_snippets (md : UserScriptMetadata) : List String :=
  ((get_required_apis md).map get_api_polyfill).filter (fun s => s != "")

/-- `CodeConverter._generate_polyfill`. -/
def generate_polyfill (md : UserScriptMetadata) : String :=
  let needed_apis := get_required_apis md
  if needed_apis.isEmpty then ""
  else
    pyJoin "\n"
      (["// ===== GM API Polyfill for Browser Extensions =====",
        "(function() \x7b",
        "    \"use strict\";",
        ""]
       ++ emitted_snippets md
       ++ ["\x7d)();"])

/-- `CodeConverter.convert`: prepend the polyfill blob (when the script
uses the GM API family and the blob is non-empty) to the code body, joined
by a blank line. -/
def convert (md : UserScriptMetadata) (code_body : String) : String :=
  let parts : List String :=
    if uses_gm_api md then
      let polyfill := generate_polyfill md
      if polyfill != "" then [polyfill] else []
    else []
  pyJoin "\n\n" (parts ++ [code_body])

/-- The `GM_API_PERMISSIONS` class table of `ManifestV3Generator`, in
source order (all keys use the underscore spelling). -/
def GM_API_PERMISSIONS : List (String × List String) :=
  [("GM_xmlHttpRequest", ["<all_urls>"]),
   ("GM_addStyle", []),
   ("GM_setValue", ["storage"]),
   ("GM_getValue", ["storage"]),
   ("GM_deleteValue", ["storage"]),
   ("GM_listValues", ["storage"]),
   ("GM_notification", ["notifications"]),
   ("GM_setClipboard", ["clipboardWrite"]),
   ("GM_openInTab", ["tabs"]),
   ("GM_download", ["downloads", "<all_urls>"])]

/-- Lexicographic comparison of character lists by code point, the order
Python's `sorted` uses on strings. -/
def charListLe : List Char → List Char → Bool
  | [], _ => true
  | _ :: _, [] => false
  | a :: ta, b :: tb => if a = b then charListLe ta tb else decide (a < b)

/-- Python string `<=`. -/
def strLe (a b : String) : Bool := charListLe a.data b.data

/-- Insert into a `strLe`-sorted list. -/
def insertSorted (x : String) : List String → List String
  | [] => [x]
  | y :: ys => if strLe x y then x :: y :: ys else y :: insertSorted x ys

/-- Insertion sort by `strLe`. -/
def sortStr : List String → List String
  | [] => []
  | x :: xs => insertSorted x (sortStr xs)

/-- Remove duplicates keeping each string's first occurrence. -/
def dedupFirst : List String → List String
  | [] => []
  | x :: xs => x :: (dedupFirst xs).filter (fun y => y != x)

/-- Python `sorted(list(s))` for a set `s` collected from the given list:
deduplicate, then sort lexicographically. -/
def pySortedSet (l : List String) : List String := sortStr (dedupFirst l)

/-- The permission tokens accumulated into the set by the loop of
`ManifestV3Generator._get_permissions`: for every grant other than `none`
that is a key of `GM_API_PERMISSIONS`, every truthy mapped token that does
not start with `<all_urls>`. -/
def permsOf (md : UserScriptMetadata) : List String :=
  md.grant_permissions.foldl
    (fun acc grant =>
      if grant = "none" then acc
      else
        match dictGet GM_API_PERMISSIONS grant with
        | none => acc
        | some perms =>
          acc ++ perms.filter (fun p => (p != "") && !pyStartsWith p "<all_urls>"))
    []

/-- `ManifestV3Generator._get_permissions`: the sorted deduplicated set. -/
def get_permissions (md : UserScriptMetadata) : List String :=
  pySortedSet (permsOf md)

/-- The host tokens accumulated into the set by the loop of
`ManifestV3Generator._get_host_permissions`: the literal `<all_urls>` for
every truthy mapped token starting with `<all_urls>`. -/
def hostsOf (md : UserScriptMetadata) : List String :=
  md.grant_permissions.foldl
    (fun acc grant =>
      if grant = "none" then acc
      else
        match dictGet GM_API_PERMISSIONS grant with
        | none => acc
        | some perms =>
          acc ++ (perms.filter (fun p => (p != "") && pyStartsWith p "<all_urls>")).map
            (fun _ => "<all_urls>"))
    []

/-- `ManifestV3Generator._get_host_permissions`: the grant-derived hosts
unioned with every declared connect URL, sorted. -/
def get_host_permissions (md : UserScriptMetadata) : List String :=
  pySortedSet (hostsOf md ++ md.connect_urls)

/-- `ManifestV3Generator._get_match_patterns`. -/
def get_match_patterns (md : UserScriptMetadata) : List String :=
  if md.match_patterns.isEmpty then ["<all_urls>"] else md.match_patterns

/-- The `run_at_map` literal dict of `ManifestV3Generator._get_run_at`. -/
def run_at_map : List (String × String) :=
  [("document-start", "document_start"),
   ("document-end", "document_end"),
   ("document-idle", "document_idle")]

/-- `ManifestV3Generator._get_run_at`: `run_at_map.get(run_at, "document_end")`. -/
def get_run_at (md : UserScriptMetadata) : String :=
  (dictGet run_at_map md.run_at).getD "document_end"

/-- `ManifestV3Generator._get_js_files`: `lib/`-prefixed library files in
order, then the fixed main script name, always last. -/
def get_js_files (lib_files : List String) : List String :=
  (if lib_files.isEmpty then [] else lib_files.map (fun lib => "lib/" ++ lib)) ++ ["content.js"]

/-- `ManifestV3Generator._normalize_version`: strip all leading `v`/`V`
characters (`str.lstrip("vV")`), split on `.`, and append `".0"` repeated
`3 - n` times when there are fewer than 3 components. -/
def stripVV : List Char → List Char
  | [] => []
  | c :: rest => if c = 'v' || c = 'V' then stripVV rest else c :: rest

/-- The characters of `".0" * k`. -/
def padZeros : Nat → List Char
  | 0 => []
  | n + 1 => '.' :: '0' :: padZeros n

/-- `ManifestV3Generator._normalize_version`. -/
def normalize_version (version : String) : String :=
  let v := stripVV version.data
  let parts := splitOnChar '.' v
  if parts.length < 3 then String.mk (v ++ padZeros (3 - parts.length))
  else String.mk v

/-- `ManifestV3Generator._get_icons`: the fixed three-entry size table,
present only when icon generation succeeded. -/
def get_icons (has_icons : Bool) : Option (List (String × String)) :=
  if has_icons then
    some [("16", "icons/icon16.png"), ("48", "icons/icon48.png"), ("128", "icons/icon128.png")]
  else none

/-- One `content_scripts` entry of the generated manifest.  The Python
dict key `matches` is spelled `matchesList` because `matches` is reserved
in Lean. -/
structure ContentScript where
  matchesList : List String
  js : List String
  run_at : String
deriving DecidableEq

/-- The manifest dict built by `ManifestV3Generator.generate`.  A field
whose value is `none` models a key that is absent from the dict (the
Python code only inserts `permissions` / `host_permissions` / `icons` /
`homepage_url` when truthy). -/
structure Manifest where
  manifest_version : Nat
  name : String
  version : String
  description : String
  content_scripts : List ContentScript
  permissions : Option (List String)
  host_permissions : Option (List String)
  icons : Option (List (String × String))
  homepage_url : Option String
deriving DecidableEq

/-- `ManifestV3Generator.generate`. -/
def generate (md : UserScriptMetadata) (lib_files : List String) (has_icons : Bool) :
    Manifest :=
  { manifest_version := 3
    name := md.name
    version := normalize_version md.version
    description := md.description
    content_scripts :=
      [{ matchesList := get_match_patterns md
         js := get_js_files lib_files
         run_at := get_run_at md }]
    permissions :=
      (fun p => if p.isEmpty then none else some p) (get_permissions md)
    host_permissions :=
      (fun h => if h.isEmpty then none else some h) (get_host_permissions md)
    icons := get_icons has_icons
    homepage_url :=
      match md.homepage_url with
      | some h => if h != "" then some h else none
      | none => none }

/-- The fatal errors `validate_store_readiness` can raise, in source
order: missing/placeholder description, description over 132 characters,
name over 75 characters. -/
inductive StoreError where
  | descriptionMissing
  | descriptionTooLong
  | nameTooLong
deriving DecidableEq

/-- `validate_store_readiness` from `src/validator.py` (the two advisory
`logger.warning` checks have no effect on the result and are omitted). -/
def validate_store_readiness (md : UserScriptMetadata) : Except StoreError Unit :=
  if md.description = "" || md.description = "Unnamed Script" then
    Except.error StoreError.descriptionMissing
  else if md.description.length > 132 then
    Except.error StoreError.descriptionTooLong
  else if md.name.length > 75 then
    Except.error StoreError.nameTooLong
  else
    Except.ok ()

/-- The all-defaults metadata record: what `UserScriptParser.parse`
produces for an empty metadata block. -/
def baseMd : UserScriptMetadata := build_metadata []

/-- A metadata record granting exactly `GM_addStyle` and `GM_setValue`
(all other fields at their parse defaults). -/
def gmPairMd : UserScriptMetadata :=
  { baseMd with grant_permissions := ["GM_addStyle", "GM_setValue"] }

/-- The full text `CodeConverter._generate_polyfill` produces for
`gmPairMd`: header comment, wrapper opening, `"use strict"`, blank line,
the single `GM_addStyle` shim, wrapper close. -/
def gmPairExpectedBlob : String :=
  "// ===== GM API Polyfill for Browser Extensions =====\n(function() \x7b\n    \"use strict\";\n\n    // GM_addStyle polyfill\n    if (typeof GM_addStyle === \x27undefined\x27) \x7b\n        window.GM_addStyle = function(css) \x7b\n            const style = document.createElement(\x27style\x27);\n            style.textContent = css;\n            document.head.appendChild(style);\n            return style;\n        \x7d;\n    \x7d\n\x7d)();"

/-- A metadata record declaring the same capability twice. -/
def dupMd : UserScriptMetadata :=
  { baseMd with grant_permissions := ["GM_addStyle", "GM_addStyle"] }

/-- The minimal end-to-end script of the spec scenario: `@name Foo`,
`@version 1.0`, `@description Bar`, `@grant none`, no `@match`. -/
def c6script : String :=
  "// ==UserScript==\n// @name Foo\n// @version 1.0\n// @description Bar\n// @grant none\n// ==/UserScript==\n\nconsole.log(1);"

/-- A 132-character description (exactly the Chrome Web Store ceiling). -/
def descr132 : String :=
  "aaaaaaaaaaaaaaaaaaaaaaaaaaaaaaaaaaaaaaaaaaaaaaaaaaaaaaaaaaaaaaaaaaaaaaaaaaaaaaaaaaaaaaaaaaaaaaaaaaaaaaaaaaaaaaaaaaaaaaaaaaaaaaaaaaaa"

/-- A 133-character description (one over the ceiling). -/
def descr133 : String :=
  "aaaaaaaaaaaaaaaaaaaaaaaaaaaaaaaaaaaaaaaaaaaaaaaaaaaaaaaaaaaaaaaaaaaaaaaaaaaaaaaaaaaaaaaaaaaaaaaaaaaaaaaaaaaaaaaaaaaaaaaaaaaaaaaaaaaaa"

/-! Helper lemmas about the string primitives. -/

/-- `splitOnChar` never returns the empty list of segments. -/
theorem splitOnChar_ne_nil (sep : Char) (l : List Char) : splitOnChar sep l ≠ [] := by
  induction l with
  | nil => simp [splitOnChar]
  | cons c rest ih =>
    cases h : splitOnChar sep rest with
    | nil => exact absurd h ih
    | cons p ps => by_cases hc : c = sep <;> simp [splitOnChar, hc, h]

/-- Splitting distributes over an occurrence of the separator. -/
theorem splitOnChar_append_sep (sep : Char) (a b : List Char) :
    splitOnChar sep (a ++ sep :: b) = splitOnChar sep a ++ splitOnChar sep b := by
  induction a with
  | nil => simp [splitOnChar]
  | cons c rest ih =>
    by_cases hc : c = sep
    · subst hc
      simp [splitOnChar, ih]
    · cases h : splitOnChar sep rest with
      | nil => exact absurd h (splitOnChar_ne_nil sep rest)
      | cons p ps => simp [splitOnChar, hc, ih, h]

/-- Unfolding equation of `splitOnChar` at the separator. -/
theorem splitOnChar_cons_sep (sep : Char) (l : List Char) :
    splitOnChar sep (sep :: l) = [] :: splitOnChar sep l := by
  simp [splitOnChar]

/-- Unfolding equation of `splitOnChar` at a non-separator. -/
theorem splitOnChar_cons_ne (sep c : Char) (l : List Char) (hc : ¬ c = sep) :
    splitOnChar sep (c :: l) =
      match splitOnChar sep l with
      | [] => [[c]]
      | p :: ps => (c :: p) :: ps := by
  simp [splitOnChar, hc]

/-- Splitting the pad text `"0" ++ ".0" * k` on `.` yields `k + 1` copies
of the segment `"0"`. -/
theorem splitOnChar_zero_pad (k : Nat) :
    splitOnChar '.' ('0' :: padZeros k) = List.replicate (k + 1) ['0'] := by
  induction k with
  | zero => rfl
  | succ n ih =>
    show splitOnChar '.' ('0' :: '.' :: '0' :: padZeros n) = List.replicate (n + 2) ['0']
    rw [splitOnChar_cons_ne _ _ _ (by decide), splitOnChar_cons_sep, ih]
    simp [List.replicate_succ]

/-- `dropWhile` skips a leading block of elements satisfying the predicate. -/
theorem dropWhile_append_of_all {p : Char → Bool} {a : List Char} (b : List Char)
    (h : ∀ x ∈ a, p x = true) : (a ++ b).dropWhile p = b.dropWhile p := by
  induction a with
  | nil => rfl
  | cons c rest ih =>
    have hc : p c = true := h c (by simp)
    simp only [List.cons_append, List.dropWhile_cons, hc, if_pos trivial]
    exact ih (fun x hx => h x (by simp [hx]))

/-! Helper lemmas about the metadata dictionary. -/

/-- `addValue` keeps every value list non-empty. -/
theorem addValue_snd_ne_nil (m : List (String × List String)) (k v : String)
    (h : ∀ q ∈ m, q.2 ≠ []) : ∀ q ∈ addValue m k v, q.2 ≠ [] := by
  induction m with
  | nil =>
    intro q hq
    rw [show addValue [] k v = [(k, [v])] from rfl] at hq
    rcases List.mem_singleton.mp hq with rfl
    simp
  | cons e rest ih =>
    obtain ⟨k', vs⟩ := e
    intro q hq
    by_cases he : k' = k
    · rw [show addValue ((k', vs) :: rest) k v = (k', vs ++ [v]) :: rest from by
        simp [addValue, he]] at hq
      rcases List.mem_cons.mp hq with rfl | hq
      · simp
      · exact h q (List.mem_cons_of_mem _ hq)
    · rw [show addValue ((k', vs) :: rest) k v = (k', vs) :: addValue rest k v from by
        simp [addValue, he]] at hq
      rcases List.mem_cons.mp hq with rfl | hq
      · exact h (k', vs) (List.mem_cons_self _ _)
      · exact ih (fun q' hq' => h q' (List.mem_cons_of_mem _ hq')) q hq

/-- Folding `processLine` over any lines keeps every value list non-empty. -/
theorem foldl_processLine_snd_ne_nil (lines : List (List Char)) :
    ∀ m, (∀ q ∈ m, q.2 ≠ []) → ∀ q ∈ lines.foldl processLine m, q.2 ≠ [] := by
  induction lines with
  | nil => intro m hm; exact hm
  | cons line rest ih =>
    intro m hm
    apply ih
    unfold processLine
    cases matchDirectiveLine (stripChars line) with
    | none => exact hm
    | some kv => exact addValue_snd_ne_nil m kv.1 kv.2 hm

/-- A successful `dictGet` comes from an entry of the list. -/
theorem dictGet_mem {α : Type} (m : List (String × α)) (k : String) (v : α)
    (h : dictGet m k = some v) : (k, v) ∈ m := by
  induction m with
  | nil => simp [dictGet] at h
  | cons e rest ih =>
    obtain ⟨k', w⟩ := e
    by_cases he : k' = k
    · subst he
      rw [show dictGet ((k', w) :: rest) k' = some w from by simp [dictGet]] at h
      have hv : w = v := by injection h
      subst hv
      exact List.mem_cons_self _ _
    · rw [show dictGet ((k', w) :: rest) k = dictGet rest k from by simp [dictGet, he]] at h
      exact List.mem_cons_of_mem _ (ih h)

/-- Folding a step function that ignores `"none"` over a list of
`"none"`s leaves the accumulator unchanged. -/
theorem foldl_skip_none {α : Type} (f : α → String → α) (hf : ∀ a, f a "none" = a) :
    ∀ (l : List String), (∀ g ∈ l, g = "none") → ∀ (a : α), l.foldl f a = a := by
  intro l
  induction l with
  | nil => intro _ a; rfl
  | cons x xs ih =>
    intro hl a
    have hx : x = "none" := hl x (by simp)
    rw [List.foldl_cons, hx, hf]
    exact ih (fun g hg => hl g (by simp [hg])) a

/-! Claim theorems. -/

/-- Claim C8: for every code body `b`, converting with
`grantedCapabilities = ["none"]` returns `b` unchanged, byte-identical to
the input. -/
theorem C8_convert_none_is_identity (md : UserScriptMetadata) (b : String)
    (h : md.grant_permissions = ["none"]) : convert md b = b := by
  have hu : uses_gm_api md = false := by
    simp [uses_gm_api, h, pyStartsWith]
  simp [convert, hu, pyJoin]

/-- Witness for C8 at the all-defaults record and a concrete body. -/
theorem C8_witness :
    baseMd.grant_permissions = ["none"] ∧ convert baseMd "console.log(1);" = "console.log(1);" :=
  ⟨rfl, C8_convert_none_is_identity baseMd "console.log(1);" rfl⟩

/-- Claim C7: the store-readiness validator accepts a description of
exactly 132 characters (when the name check also passes), raises the
length-violation error at 133 characters, and raises the missing-description
error for an empty description regardless of every other field. -/
theorem C7_description_length_rules (md : UserScriptMetadata) :
    (md.description.length = 132 → md.name.length ≤ 75 →
      validate_store_readiness md = Except.ok ()) ∧
    (md.description.length = 133 →
      validate_store_readiness md = Except.error StoreError.descriptionTooLong) ∧
    (md.description = "" →
      validate_store_readiness md = Except.error StoreError.descriptionMissing) := by
  refine ⟨fun h1 h2 => ?_, fun h1 => ?_, fun h1 => ?_⟩
  · have hne : ¬ (md.description = "") := by
      intro he; rw [he] at h1; exact absurd h1 (by decide)
    have hnu : ¬ (md.description = "Unnamed Script") := by
      intro he; rw [he] at h1; exact absurd h1 (by decide)
    have hlen : ¬ (md.description.length > 132) := by omega
    have hname : ¬ (md.name.length > 75) := by omega
    simp [validate_store_readiness, hne, hnu, hlen, hname]
  · have hne : ¬ (md.description = "") := by
      intro he; rw [he] at h1; exact absurd h1 (by decide)
    have hnu : ¬ (md.description = "Unnamed Script") := by
      intro he; rw [he] at h1; exact absurd h1 (by decide)
    have hlen : md.description.length > 132 := by omega
    simp [validate_store_readiness, hne, hnu, hlen]
  · simp [validate_store_readiness, h1]

/-- Witness for C7: a 132-character description passes, a 133-character
one fails with the length violation, the empty description fails with the
missing-description violation. -/
theorem C7_witness :
    validate_store_readiness { baseMd with description := descr132 } = Except.ok () ∧
    validate_store_readiness { baseMd with description := descr133 } =
      Except.error StoreError.descriptionTooLong ∧
    validate_store_readiness { baseMd with description := "" } =
      Except.error StoreError.descriptionMissing :=
  ⟨(C7_description_length_rules _).1 (by decide) (by decide),
   (C7_description_length_rules _).2.1 (by decide),
   (C7_description_length_rules _).2.2 rfl⟩

/-- Counterexample for C3: a record with `runAt = "document-idle"` does
not pass through unchanged; the code maps it to `"document_idle"`. -/
theorem C3_counterexample :
    get_run_at { baseMd with run_at := "document-idle" } = "document_idle" ∧
    get_run_at { baseMd with run_at := "document-idle" } ≠ "document-idle" := by
  refine ⟨rfl, by decide⟩

/-- Claim C3 (amended): the manifest `run_at` is computed by a fixed table
in which all three recognized timing values map one-to-one to their
underscore spellings (`"document-idle"` maps to `"document_idle"`, not to
itself), and every unrecognized or missing value maps to `"document_end"`. -/
theorem C3_run_at_table (md : UserScriptMetadata) :
    (md.run_at = "document-start" → get_run_at md = "document_start") ∧
    (md.run_at = "document-end" → get_run_at md = "document_end") ∧
    (md.run_at = "document-idle" → get_run_at md = "document_idle") ∧
    (md.run_at ≠ "document-start" → md.run_at ≠ "document-end" →
      md.run_at ≠ "document-idle" → get_run_at md = "document_end") := by
  refine ⟨fun h => ?_, fun h => ?_, fun h => ?_, fun h1 h2 h3 => ?_⟩
  · simp only [get_run_at, h]; rfl
  · simp only [get_run_at, h]; rfl
  · simp only [get_run_at, h]; rfl
  · have g1 : ¬ ("document-start" = md.run_at) := fun he => h1 he.symm
    have g2 : ¬ ("document-end" = md.run_at) := fun he => h2 he.symm
    have g3 : ¬ ("document-idle" = md.run_at) := fun he => h3 he.symm
    simp [get_run_at, run_at_map, dictGet, g1, g2, g3]

/-- Witness for C3 at an unrecognized timing value. -/
theorem C3_witness :
    ("weird" : String) ≠ "document-start" ∧
    get_run_at { baseMd with run_at := "weird" } = "document_end" :=
  ⟨by decide, (C3_run_at_table _).2.2.2 (by decide) (by decide) (by decide)⟩

/-- Counterexample for C4: a record whose grants are exactly `["none"]`
but which declares a connect URL gets a non-empty hostPermissions set. -/
theorem C4_counterexample :
    ({ baseMd with connect_urls := ["https://api.example.com/*"] } :
        UserScriptMetadata).grant_permissions = ["none"] ∧
    get_host_permissions { baseMd with connect_urls := ["https://api.example.com/*"] } =
      ["https://api.example.com/*"] ∧
    get_host_permissions { baseMd with connect_urls := ["https://api.example.com/*"] } ≠ [] := by
  refine ⟨rfl, rfl, by decide⟩

/-- Claim C4 (amended): for every record whose grants are all `"none"`
(or empty) and whose connectUrls list is also empty, the permission
mapping yields an empty permissions set and an empty hostPermissions set.
(The original claim is false when connectUrls is non-empty, because
`_get_host_permissions` unions in every declared connect URL.) -/
theorem C4_none_grants_yield_empty (md : UserScriptMetadata)
    (hg : ∀ g ∈ md.grant_permissions, g = "none") (hc : md.connect_urls = []) :
    get_permissions md = [] ∧ get_host_permissions md = [] := by
  have hperm : permsOf md = [] := by
    unfold permsOf
    exact foldl_skip_none _ (fun a => by simp) md.grant_permissions hg []
  have hhost : hostsOf md = [] := by
    unfold hostsOf
    exact foldl_skip_none _ (fun a => by simp) md.grant_permissions hg []
  constructor
  · rw [get_permissions, hperm]; rfl
  · rw [get_host_permissions, hhost, hc]; rfl

/-- Witness for C4 at the all-defaults record. -/
theorem C4_witness : get_permissions baseMd = [] ∧ get_host_permissions baseMd = [] :=
  C4_none_grants_yield_empty baseMd (by decide) rfl

/-- Counterexample for C1: with grants `["GM_addStyle", "GM_setValue"]`
the shim table contributes no `GM_setValue` snippet (that key does not
exist — only the dotted `GM.setValue` does), so exactly one snippet is
emitted, not two. -/
theorem C1_counterexample :
    get_api_polyfill "GM_setValue" = "" ∧
    emitted_snippets gmPairMd = [polyfill_GM_addStyle] ∧
    (emitted_snippets gmPairMd).length ≠ 2 := by
  refine ⟨rfl, rfl, by decide⟩

/-- Claim C1 (amended): for every code body `b`, converting a script whose
grants are exactly `["GM_addStyle", "GM_setValue"]` produces the wrapper
with exactly one shim snippet — the `GM_addStyle` one; `GM_setValue` has
no entry in the shim table and contributes none — and the original body
`b` follows after exactly one blank line separating the wrapper's closing
line from `b`. -/
theorem C1_single_snippet_then_body (b : String) :
    convert gmPairMd b = gmPairExpectedBlob ++ "\n\n" ++ b ∧
    emitted_snippets gmPairMd = [get_api_polyfill "GM_addStyle"] ∧
    get_api_polyfill "GM_addStyle" ≠ "" := by
  refine ⟨rfl, rfl, by decide⟩

/-- Counterexample for C2: a capability declared twice stays twice in the
required-API list (no de-duplication), and its shim snippet is emitted
twice. -/
theorem C2_counterexample :
    get_required_apis dupMd = ["GM_addStyle", "GM_addStyle"] ∧
    get_required_apis dupMd ≠ ["GM_addStyle"] ∧
    (emitted_snippets dupMd).length = 2 := by
  refine ⟨rfl, by decide, by decide⟩

/-- Claim C2 (amended): the required-API list preserves the first-seen
order of grantedCapabilities (it is a sublist of it) but is not
de-duplicated: every GM-family capability keeps its full multiplicity, so
a capability declared twice contributes its shim snippet twice. -/
theorem C2_required_apis_keep_multiplicity (md : UserScriptMetadata) (c : String)
    (h1 : c ≠ "none") (h2 : pyStartsWith c "GM" = true) :
    List.Sublist (get_required_apis md) md.grant_permissions ∧
    (get_required_apis md).count c = md.grant_permissions.count c := by
  constructor
  · exact List.filter_sublist _
  · have hp : ((c != "none") && pyStartsWith c "GM") = true := by
      simp [bne_iff_ne, h1, h2]
    unfold get_required_apis
    exact List.count_filter hp

/-- Witness for C2 at the duplicated-grant record. -/
theorem C2_witness :
    List.Sublist (get_required_apis dupMd) dupMd.grant_permissions ∧
    (get_required_apis dupMd).count "GM_addStyle" =
      dupMd.grant_permissions.count "GM_addStyle" :=
  C2_required_apis_keep_multiplicity dupMd "GM_addStyle" (by decide) (by decide)

/-- Claim C6: the end-to-end minimal script (`@name Foo`, `@version 1.0`,
`@description Bar`, `@grant none`, no `@match`) parses and generates a
manifest with matches `["<all_urls>"]`, no permissions key, no
host_permissions key, js files `["content.js"]` and version `"1.0.0"`. -/
theorem C6_minimal_end_to_end :
    (parse c6script).map (fun md => generate md [] false) =
      some { manifest_version := 3
             name := "Foo"
             version := "1.0.0"
             description := "Bar"
             content_scripts :=
               [{ matchesList := ["<all_urls>"], js := ["content.js"],
                  run_at := "document_end" }]
             permissions := none
             host_permissions := none
             icons := none
             homepage_url := none } := by
  rfl

/-- Claim C10: a metadata-block line consisting of `// @` followed by a
non-empty whitespace-free key and (possibly) trailing whitespace — i.e. a
directive with no value text — records nothing: the accumulated metadata
dict is returned unchanged, because the directive-line pattern requires at
least one whitespace character followed by a non-empty value. -/
theorem C10_valueless_directive_ignored (k w : List Char) (m : List (String × List String))
    (hk : k ≠ []) (hks : ∀ c ∈ k, pyIsSpace c = false) (hw : ∀ c ∈ w, pyIsSpace c = true) :
    processLine m ('/' :: '/' :: ' ' :: '@' :: (k ++ w)) = m := by
  have hslash : pyIsSpace '/' = false := rfl
  have step1 : ('/' :: '/' :: ' ' :: '@' :: (k ++ w)).dropWhile pyIsSpace
      = '/' :: '/' :: ' ' :: '@' :: (k ++ w) := by
    rw [List.dropWhile_cons, hslash]
    simp
  have step2 : ('/' :: '/' :: ' ' :: '@' :: (k ++ w)).reverse.dropWhile pyIsSpace
      = k.reverse ++ ['@', ' ', '/', '/'] := by
    have hrev : ('/' :: '/' :: ' ' :: '@' :: (k ++ w)).reverse
        = w.reverse ++ (k.reverse ++ ['@', ' ', '/', '/']) := by
      simp
    rw [hrev, dropWhile_append_of_all _ (fun x hx => hw x (List.mem_reverse.mp hx))]
    cases hkr : k.reverse with
    | nil => exact absurd (by simpa using congrArg List.reverse hkr) hk
    | cons c t =>
      have hc : pyIsSpace c = false := by
        refine hks c ?_
        have : c ∈ k.reverse := by rw [hkr]; simp
        exact List.mem_reverse.mp this
      rw [List.cons_append, List.dropWhile_cons, hc]
      simp
  have hstrip : stripChars ('/' :: '/' :: ' ' :: '@' :: (k ++ w))
      = '/' :: '/' :: ' ' :: '@' :: k := by
    unfold stripChars
    rw [step1, step2]
    simp
  have hdrop : k.dropWhile (fun c => !pyIsSpace c) = [] := by
    rw [List.dropWhile_eq_nil_iff]
    intro x hx
    simp [hks x hx]
  have hmatch : matchDirectiveLine ('/' :: '/' :: ' ' :: '@' :: k) = none := by
    unfold matchDirectiveLine
    simp [hdrop]
  unfold processLine
  rw [hstrip, hmatch]

/-- Witness for C10: the key-only line `// @noframes` leaves the empty
dict empty; in particular `noframes` is absent from the parsed metadata of
a block holding only that line. -/
theorem C10_witness :
    processLine [] ('/' :: '/' :: ' ' :: '@' :: ("noframes".data ++ [])) = [] ∧
    dictGet (parse_metadata_lines "// @noframes") "noframes" = none :=
  ⟨C10_valueless_directive_ignored "noframes".data [] []
      (by decide) (by decide) (by decide),
   rfl⟩

/-- The `grant_permissions` field of the built record, as a function of
the raw dict. -/
theorem build_metadata_grants (raw : List (String × List String)) :
    (build_metadata raw).grant_permissions =
      match dictGet raw "grant" with
      | some vs => vs
      | none => ["none"] := rfl

/-- Claim C9: for every input text the parser accepts, the resulting
record's grantedCapabilities list is non-empty: when no `@grant` directive
is recorded it defaults to `["none"]`, and otherwise it is exactly the
recorded `@grant` values (which are never an empty list). -/
theorem C9_grants_never_empty (content : String) (md : UserScriptMetadata)
    (h : parse content = some md) :
    md.grant_permissions ≠ [] ∧
    (dictGet md.raw_metadata "grant" = none → md.grant_permissions = ["none"]) ∧
    (∀ vs, dictGet md.raw_metadata "grant" = some vs → md.grant_permissions = vs) := by
  unfold parse at h
  cases hb : extract_metadata_block content with
  | none => rw [hb] at h; simp at h
  | some block =>
    rw [hb] at h
    simp only [Option.map_some'] at h
    have hmd : md = build_metadata (parse_metadata_lines block) := by
      injection h with h'
      exact h'.symm
    subst hmd
    have hraw : (build_metadata (parse_metadata_lines block)).raw_metadata
        = parse_metadata_lines block := rfl
    cases hg : dictGet (parse_metadata_lines block) "grant" with
    | none =>
      have hgr : (build_metadata (parse_metadata_lines block)).grant_permissions
          = ["none"] := by
        rw [build_metadata_grants, hg]
      refine ⟨by simp [hgr], fun _ => hgr, fun vs hvs => ?_⟩
      rw [hraw, hg] at hvs
      cases hvs
    | some vs =>
      have hgr : (build_metadata (parse_metadata_lines block)).grant_permissions = vs := by
        rw [build_metadata_grants, hg]
      have hvs_ne : vs ≠ [] := by
        have hmem : ("grant", vs) ∈ parse_metadata_lines block := dictGet_mem _ _ _ hg
        exact foldl_processLine_snd_ne_nil (splitOnChar '\n' block.data) []
          (fun q hq => absurd hq (List.not_mem_nil q)) ("grant", vs) hmem
      refine ⟨by rw [hgr]; exact hvs_ne, fun hnone => ?_, fun vs' hvs' => ?_⟩
      · rw [hraw, hg] at hnone
        cases hnone
      · rw [hraw, hg] at hvs'
        injection hvs' with h''
        rw [hgr, h'']

/-- Witness for C9: the empty metadata block parses to a record whose
grants default to `["none"]`. -/
theorem C9_witness :
    (build_metadata (parse_metadata_lines "")).grant_permissions ≠ [] ∧
    (dictGet (build_metadata (parse_metadata_lines "")).raw_metadata "grant" = none →
      (build_metadata (parse_metadata_lines "")).grant_permissions = ["none"]) ∧
    (∀ vs, dictGet (build_metadata (parse_metadata_lines "")).raw_metadata "grant" = some vs →
      (build_metadata (parse_metadata_lines "")).grant_permissions = vs) :=
  C9_grants_never_empty "// ==UserScript==\n// ==/UserScript==" _ rfl

/-- Claim C5: version normalization strips all leading `v`/`V` characters
and splits on `.`; with at least 3 components the stripped string is
returned unchanged (so a 4th component is preserved), and with fewer the
result's components are exactly the original components right-padded with
`"0"` segments up to exactly 3; in particular `"1"` normalizes to
`"1.0.0"`, `"v2.3"` to `"2.3.0"`, `"1.2.3.4"` is unchanged, and
`"V1.0.0"` normalizes to `"1.0.0"`. -/
theorem C5_normalize_version_rules (version : String) :
    (3 ≤ (splitOnChar '.' (stripVV version.data)).length →
      normalize_version version = String.mk (stripVV version.data)) ∧
    ((splitOnChar '.' (stripVV version.data)).length < 3 →
      splitOnChar '.' (normalize_version version).data =
        splitOnChar '.' (stripVV version.data) ++
          List.replicate (3 - (splitOnChar '.' (stripVV version.data)).length) ['0']) ∧
    normalize_version "1" = "1.0.0" ∧
    normalize_version "v2.3" = "2.3.0" ∧
    normalize_version "1.2.3.4" = "1.2.3.4" ∧
    normalize_version "V1.0.0" = "1.0.0" := by
  refine ⟨fun h3 => ?_, fun hlt => ?_, rfl, rfl, rfl, rfl⟩
  · have hn : ¬ ((splitOnChar '.' (stripVV version.data)).length < 3) := by omega
    simp [normalize_version, hn]
  · have hver : normalize_version version
        = String.mk (stripVV version.data ++
            padZeros (3 - (splitOnChar '.' (stripVV version.data)).length)) := by
      simp [normalize_version, hlt]
    rw [hver]
    obtain ⟨j, hj⟩ : ∃ j, 3 - (splitOnChar '.' (stripVV version.data)).length = j + 1 :=
      ⟨2 - (splitOnChar '.' (stripVV version.data)).length, by omega⟩
    rw [hj]
    show splitOnChar '.' (stripVV version.data ++ ('.' :: '0' :: padZeros j)) = _
    rw [splitOnChar_append_sep, splitOnChar_zero_pad]

/-- Witness for C5: a four-component version is returned as stripped, and
a two-component version gains exactly one `"0"` component. -/
theorem C5_witness :
    normalize_version "1.2.3.4" = String.mk (stripVV "1.2.3.4".data) ∧
    splitOnChar '.' (normalize_version "v2.3").data =
      splitOnChar '.' (stripVV "v2.3".data) ++ List.replicate 1 ['0'] :=
  ⟨(C5_normalize_version_rules "1.2.3.4").1 (by decide),
   (C5_normalize_version_rules "v2.3").2.1 (by decide)⟩
